import Mathlib

/-!
Verification of the ESP32 Touchdown Retro Clock rendering/animation engine.

The definitions below are a shallow embedding of the C++ sources:
  * `MorphingDigit`  — src/src/MorphingDigit.cpp / include/MorphingDigit.h
  * the delta compositor — `renderFBToTFT` in src/src/main.cpp
  * the spawn morph — `drawSpawnMorphToTarget` in src/src/main.cpp
  * the mode controller — `switchClockMode` in src/src/main.cpp
`float` values (morph progress, eased time) are modelled as rationals;
the C cast `(uint8_t)x` of a non-negative value truncates toward zero and
is modelled as `Int.toNat ∘ Int.floor`.  `unsigned long` is 32 bits on the
ESP32 target, so the elapsed-time accumulator is kept modulo `2^32`.
-/

/-- `unsigned long` modulus on the ESP32 target (32-bit). -/
def U32 : ℕ := 2 ^ 32

/-- C cast `(uint8_t)` of a non-negative float value: truncation toward zero. -/
def truncToUInt8 (q : ℚ) : ℕ := (Int.floor q).toNat

/-- `DIGIT_SEGMENTS` table from include/MorphingDigit.h (bit i = segment i on). -/
def DIGIT_SEGMENTS : List ℕ := [63, 6, 91, 79, 102, 109, 125, 7, 127, 111]

/-- `MorphingDigit::isSegmentActive` from src/src/MorphingDigit.cpp. -/
def isSegmentActive (digit seg : ℕ) : Bool :=
  if digit > 9 then false
  else (DIGIT_SEGMENTS.getD digit 0 &&& (1 <<< seg)) ≠ 0

/-- `MorphingDigit::easeInOutCubic` from src/src/MorphingDigit.cpp,
floats modelled as rationals. -/
def easeInOutCubic (t : ℚ) : ℚ :=
  if t < 1/2 then 4 * t * t * t
  else 1 - (-2 * t + 2) ^ 3 / 2

/-- State of a `MorphingDigit` object (fields of the C++ class). -/
structure MorphingDigit where
  currentDigit : ℕ
  targetDigit : ℕ
  progress : ℚ
  isMorphing : Bool
  morphTime : ℕ
  elapsed : ℕ
  deriving DecidableEq, Repr

namespace MorphingDigit

/-- `MorphingDigit::MorphingDigit()` constructor; `MORPH_DURATION_MS = 100`. -/
def init : MorphingDigit :=
  { currentDigit := 0, targetDigit := 0, progress := 0
    isMorphing := false, morphTime := 100, elapsed := 0 }

/-- `MorphingDigit::setTarget` from src/src/MorphingDigit.cpp.
`if (digit > 9) digit = 0;` then re-arm only when the digit differs. -/
def setTarget (digit : ℕ) (s : MorphingDigit) : MorphingDigit :=
  let d := if digit > 9 then 0 else digit
  if d ≠ s.currentDigit then
    { s with targetDigit := d, isMorphing := true, progress := 0, elapsed := 0 }
  else s

/-- `MorphingDigit::update` from src/src/MorphingDigit.cpp.
`_elapsed += deltaMs` is 32-bit unsigned arithmetic. -/
def update (deltaMs : ℕ) (s : MorphingDigit) : MorphingDigit :=
  if s.isMorphing = false then s
  else
    let e := (s.elapsed + deltaMs) % U32
    if s.morphTime ≤ e then
      { s with currentDigit := s.targetDigit, progress := 1
               isMorphing := false, elapsed := 0 }
    else
      { s with elapsed := e
               progress := easeInOutCubic ((e : ℚ) / (s.morphTime : ℚ)) }

/-- `MorphingDigit::setCurrent` from src/src/MorphingDigit.cpp. -/
def setCurrent (digit : ℕ) (s : MorphingDigit) : MorphingDigit :=
  let d := if digit > 9 then 0 else digit
  { s with currentDigit := d, targetDigit := d, progress := 0
           isMorphing := false, elapsed := 0 }

/-- `MorphingDigit::getSegmentBrightness` from src/src/MorphingDigit.cpp. -/
def getSegmentBrightness (segment : ℕ) (s : MorphingDigit) : ℕ :=
  let currentActive := isSegmentActive s.currentDigit segment
  let targetActive := isSegmentActive s.targetDigit segment
  if s.isMorphing = false then
    if currentActive then 255 else 0
  else if currentActive && targetActive then 255
  else if currentActive && !targetActive then
    truncToUInt8 (255 * (1 - s.progress))
  else if !currentActive && targetActive then
    truncToUInt8 (255 * s.progress)
  else 0

/-- One API call on a `MorphingDigit`. -/
inductive MOp where
  | setT (d : ℕ)
  | upd (deltaMs : ℕ)
  | setC (d : ℕ)
  deriving DecidableEq, Repr

/-- Apply one API call. -/
def applyOp (s : MorphingDigit) (op : MOp) : MorphingDigit :=
  match op with
  | .setT d => setTarget d s
  | .upd d => update d s
  | .setC d => setCurrent d s

/-- Run a sequence of API calls from the constructor state. -/
def run (ops : List MOp) : MorphingDigit := ops.foldl applyOp init

end MorphingDigit

example : (MorphingDigit.run [.setT 8, .upd 50]).progress = 1/2 := by
  norm_num [MorphingDigit.run, MorphingDigit.applyOp, MorphingDigit.setTarget,
    MorphingDigit.update, MorphingDigit.init, easeInOutCubic, U32]
example : (MorphingDigit.run [.setT 8, .upd 50, .upd 60]) =
    { currentDigit := 8, targetDigit := 8, progress := 1, isMorphing := false
      morphTime := 100, elapsed := 0 } := by
  norm_num [MorphingDigit.run, MorphingDigit.applyOp, MorphingDigit.setTarget,
    MorphingDigit.update, MorphingDigit.init, easeInOutCubic, U32]
example : MorphingDigit.getSegmentBrightness 6 (MorphingDigit.run [.setT 8, .upd 50]) = 127 := by
  norm_num [MorphingDigit.run, MorphingDigit.applyOp, MorphingDigit.setTarget,
    MorphingDigit.update, MorphingDigit.init, easeInOutCubic, U32,
    MorphingDigit.getSegmentBrightness, isSegmentActive, DIGIT_SEGMENTS, truncToUInt8]
  decide

/-! ### Easing function facts -/

lemma easeInOutCubic_le_one {t : ℚ} (h0 : 0 ≤ t) (h1 : t ≤ 1) :
    easeInOutCubic t ≤ 1 := by
  unfold easeInOutCubic
  split
  · rename_i h
    nlinarith [mul_nonneg h0 h0, mul_nonneg (mul_nonneg h0 h0) h0, sq_nonneg t,
      sq_nonneg (t - 1/2)]
  · rename_i h
    push_neg at h
    have h2 : (0:ℚ) ≤ -2 * t + 2 := by linarith
    have h3 : (0:ℚ) ≤ (-2 * t + 2) ^ 3 := pow_nonneg h2 3
    linarith

lemma easeInOutCubic_mono {t t' : ℚ} (h0 : 0 ≤ t) (htt : t ≤ t') (h1 : t' ≤ 1) :
    easeInOutCubic t ≤ easeInOutCubic t' := by
  unfold easeInOutCubic
  split <;> split
  · rename_i ha hb
    have hp := pow_le_pow_left₀ h0 htt 3
    nlinarith [hp]
  · rename_i ha hb
    push_neg at hb
    have hA : 4 * t * t * t ≤ 1/2 := by nlinarith [mul_nonneg h0 h0]
    have hB : (-2 * t' + 2) ^ 3 ≤ 1 := by
      have c0 : (0:ℚ) ≤ -2 * t' + 2 := by linarith
      have c1 : (-2 * t' + 2 : ℚ) ≤ 1 := by linarith
      calc (-2 * t' + 2 : ℚ) ^ 3 ≤ 1 ^ 3 := pow_le_pow_left₀ c0 c1 3
        _ = 1 := one_pow 3
    linarith
  · rename_i ha hb
    push_neg at ha
    exact absurd (lt_of_le_of_lt (le_trans ha htt) hb) (lt_irrefl _)
  · rename_i ha hb
    push_neg at ha hb
    have c0 : (0:ℚ) ≤ -2 * t' + 2 := by linarith
    have c1 : (-2 * t' + 2 : ℚ) ≤ -2 * t + 2 := by linarith
    have := pow_le_pow_left₀ c0 c1 3
    linarith

/-! ### C1 : idle invariant (amended) -/

/-- Inductive invariant for idle `MorphingDigit` states. -/
def Inv1 (s : MorphingDigit) : Prop :=
  s.isMorphing = false →
    s.currentDigit = s.targetDigit ∧ (s.progress = 0 ∨ s.progress = 1)

lemma applyOp_Inv1 (s : MorphingDigit) (op : MorphingDigit.MOp) (h : Inv1 s) :
    Inv1 (s.applyOp op) := by
  cases op with
  | setT d =>
    simp only [MorphingDigit.applyOp, MorphingDigit.setTarget]
    generalize (if d > 9 then 0 else d) = d'
    split
    · intro hm; simp at hm
    · exact h
  | upd d =>
    simp only [MorphingDigit.applyOp, MorphingDigit.update]
    split
    · exact h
    · rename_i hm
      split
      · intro _
        exact ⟨rfl, Or.inr rfl⟩
      · intro hm2
        simp only [Bool.not_eq_false] at hm
        simp at hm2
        rw [hm] at hm2
        exact absurd hm2 (by simp)
  | setC d =>
    simp only [MorphingDigit.applyOp, MorphingDigit.setCurrent]
    intro _
    exact ⟨rfl, Or.inl rfl⟩

lemma foldl_Inv1 (ops : List MorphingDigit.MOp) :
    ∀ s : MorphingDigit, Inv1 s → Inv1 (ops.foldl MorphingDigit.applyOp s) := by
  induction ops with
  | nil => intro s h; exact h
  | cons op rest ih =>
    intro s h
    exact ih _ (applyOp_Inv1 s op h)

/-- C1 (amended): for every sequence of `setTarget` / `update` / `setCurrent`
calls, whenever `isMorphing = false` the state satisfies `current = target` and
`progress` is `0` **or `1`** (it is `1`, not `0`, right after a completed
morph). -/
theorem digitMorph_idle_invariant (ops : List MorphingDigit.MOp) :
    (MorphingDigit.run ops).isMorphing = false →
      (MorphingDigit.run ops).currentDigit = (MorphingDigit.run ops).targetDigit ∧
      ((MorphingDigit.run ops).progress = 0 ∨ (MorphingDigit.run ops).progress = 1) := by
  have hinit : Inv1 MorphingDigit.init := by
    intro _
    exact ⟨rfl, Or.inl rfl⟩
  exact foldl_Inv1 ops MorphingDigit.init hinit

/-- Witness for C1: concrete run `[setTarget 8, update 100]` ends idle with
`current = target` and `progress ∈ {0, 1}`. -/
theorem digitMorph_idle_invariant_witness :
    (MorphingDigit.run [.setT 8, .upd 100]).currentDigit =
      (MorphingDigit.run [.setT 8, .upd 100]).targetDigit ∧
    ((MorphingDigit.run [.setT 8, .upd 100]).progress = 0 ∨
      (MorphingDigit.run [.setT 8, .upd 100]).progress = 1) :=
  digitMorph_idle_invariant [.setT 8, .upd 100] (by decide)

/-- Counterexample to C1 as stated: after `setTarget 8; update 100` the digit
is idle (`isMorphing = false`) but `progress = 1 ≠ 0`. -/
theorem digitMorph_idle_invariant_counterexample :
    (MorphingDigit.run [.setT 8, .upd 100]).isMorphing = false ∧
    (MorphingDigit.run [.setT 8, .upd 100]).progress ≠ 0 := by
  constructor
  · decide
  · norm_num [MorphingDigit.run, MorphingDigit.applyOp, MorphingDigit.setTarget,
      MorphingDigit.update, MorphingDigit.init, easeInOutCubic, U32]

/-! ### C5 : setTarget semantics -/

/-- C5: `setTarget d` maps out-of-range digits into `[0,9]`; the resulting
digit is a no-op when it equals `current`; otherwise the state is re-armed
with `target = d`, `progress = 0`, `elapsed = 0`, `isMorphing = true` — in
particular a `setTarget` during an in-flight morph discards the prior target
and restarts progress from 0. -/
theorem setTarget_semantics (d : ℕ) (s : MorphingDigit) :
    (if d > 9 then 0 else d) ≤ 9 ∧
    ((if d > 9 then 0 else d) = s.currentDigit → MorphingDigit.setTarget d s = s) ∧
    ((if d > 9 then 0 else d) ≠ s.currentDigit →
      MorphingDigit.setTarget d s =
        { s with targetDigit := if d > 9 then 0 else d
                 isMorphing := true, progress := 0, elapsed := 0 }) := by
  refine ⟨?_, ?_, ?_⟩
  · split <;> omega
  · intro h
    simp only [MorphingDigit.setTarget]
    rw [if_neg (by simp [h])]
  · intro h
    simp only [MorphingDigit.setTarget]
    rw [if_pos h]

/-- Witness for C5 at `d = 5` on the initial state (current digit 0). -/
theorem setTarget_semantics_witness :
    MorphingDigit.setTarget 5 MorphingDigit.init =
      { MorphingDigit.init with
          targetDigit := if 5 > 9 then 0 else 5
          isMorphing := true, progress := 0, elapsed := 0 } :=
  (setTarget_semantics 5 MorphingDigit.init).2.2 (by norm_num [MorphingDigit.init])

/-! ### C10 : setTarget with the current digit while morphing -/

/-- C10: calling `setTarget` with the current digit while a morph toward a
different target is in flight leaves the entire state unchanged, so the
morph continues toward the old target. -/
theorem setTarget_current_midflight_noop (s : MorphingDigit)
    (h9 : s.currentDigit ≤ 9) (hm : s.isMorphing = true)
    (ht : s.targetDigit ≠ s.currentDigit) :
    MorphingDigit.setTarget s.currentDigit s = s := by
  simp only [MorphingDigit.setTarget]
  rw [if_neg (by simp [h9])]

/-- Witness for C10: mid-morph state `setTarget 8; update 50` (current 0,
target 8, morphing) is untouched by `setTarget 0`. -/
theorem setTarget_current_midflight_noop_witness :
    MorphingDigit.setTarget
        (MorphingDigit.update 50 (MorphingDigit.setTarget 8 MorphingDigit.init)).currentDigit
        (MorphingDigit.update 50 (MorphingDigit.setTarget 8 MorphingDigit.init)) =
      MorphingDigit.update 50 (MorphingDigit.setTarget 8 MorphingDigit.init) :=
  setTarget_current_midflight_noop _ (by decide) (by decide) (by decide)

/-! ### C4 : update semantics and Scenario A -/

/-- C4: `update(deltaMs)` is a no-op when idle; otherwise it accumulates
`deltaMs` into the elapsed time (32-bit unsigned arithmetic) and snaps
(`current = target`, `progress = 1`, idle, `elapsed = 0`) when the elapsed
time reaches the duration, else sets `progress = easeInOutCubic(elapsed/duration)`;
Scenario A: from `current = 0`, `setTarget 8`, `update 50` is mid-morph with
`0 < progress < 1` and `current` still `0`, and a further `update 60`
finishes with `current = 8`, `progress = 1`. -/
theorem update_semantics :
    (∀ (s : MorphingDigit) (d : ℕ), s.isMorphing = false →
      MorphingDigit.update d s = s) ∧
    (∀ (s : MorphingDigit) (d : ℕ), s.isMorphing = true →
      s.morphTime ≤ (s.elapsed + d) % U32 →
      (MorphingDigit.update d s).currentDigit = s.targetDigit ∧
      (MorphingDigit.update d s).progress = 1 ∧
      (MorphingDigit.update d s).isMorphing = false ∧
      (MorphingDigit.update d s).elapsed = 0) ∧
    (∀ (s : MorphingDigit) (d : ℕ), s.isMorphing = true →
      (s.elapsed + d) % U32 < s.morphTime →
      (MorphingDigit.update d s).elapsed = (s.elapsed + d) % U32 ∧
      (MorphingDigit.update d s).progress =
        easeInOutCubic ((((s.elapsed + d) % U32 : ℕ) : ℚ) / (s.morphTime : ℚ)) ∧
      (MorphingDigit.update d s).currentDigit = s.currentDigit ∧
      (MorphingDigit.update d s).isMorphing = true) ∧
    ((MorphingDigit.run [.setT 8, .upd 50]).isMorphing = true ∧
     0 < (MorphingDigit.run [.setT 8, .upd 50]).progress ∧
     (MorphingDigit.run [.setT 8, .upd 50]).progress < 1 ∧
     (MorphingDigit.run [.setT 8, .upd 50]).currentDigit = 0 ∧
     (MorphingDigit.run [.setT 8, .upd 50, .upd 60]).isMorphing = false ∧
     (MorphingDigit.run [.setT 8, .upd 50, .upd 60]).currentDigit = 8 ∧
     (MorphingDigit.run [.setT 8, .upd 50, .upd 60]).progress = 1) := by
  refine ⟨?_, ?_, ?_, ?_⟩
  · intro s d h
    simp [MorphingDigit.update, h]
  · intro s d hm hle
    simp only [MorphingDigit.update]
    rw [if_neg (by simp [hm]), if_pos hle]
    exact ⟨rfl, rfl, rfl, rfl⟩
  · intro s d hm hlt
    simp only [MorphingDigit.update]
    rw [if_neg (by simp [hm]), if_neg (by omega)]
    exact ⟨rfl, rfl, rfl, hm⟩
  · refine ⟨by decide, ?_, ?_, by decide, by decide, by decide, ?_⟩ <;>
      norm_num [MorphingDigit.run, MorphingDigit.applyOp, MorphingDigit.setTarget,
        MorphingDigit.update, MorphingDigit.init, easeInOutCubic, U32]

/-- Witness for C4: the snap clause evaluated at `setTarget 8; update 100`. -/
theorem update_semantics_witness :
    (MorphingDigit.update 100 (MorphingDigit.setTarget 8 MorphingDigit.init)).currentDigit =
      (MorphingDigit.setTarget 8 MorphingDigit.init).targetDigit ∧
    (MorphingDigit.update 100 (MorphingDigit.setTarget 8 MorphingDigit.init)).progress = 1 ∧
    (MorphingDigit.update 100 (MorphingDigit.setTarget 8 MorphingDigit.init)).isMorphing = false ∧
    (MorphingDigit.update 100 (MorphingDigit.setTarget 8 MorphingDigit.init)).elapsed = 0 :=
  update_semantics.2.1 (MorphingDigit.setTarget 8 MorphingDigit.init) 100
    (by decide) (by decide)

/-! ### C6 : getSegmentBrightness mapping (amended: truncation, not rounding) -/

/-- C6 (amended): `getSegmentBrightness` returns 255/0 when idle according to
`curOn`; when morphing it returns 255 if the segment is on in both digits
(for every progress), `trunc(255*(1-progress))` when fading out,
`trunc(255*progress)` when fading in (C truncating cast, not rounding), and
0 otherwise. -/
theorem segment_brightness_semantics (s : MorphingDigit) (seg : ℕ) :
    (s.isMorphing = false →
      MorphingDigit.getSegmentBrightness seg s =
        if isSegmentActive s.currentDigit seg then 255 else 0) ∧
    (s.isMorphing = true → isSegmentActive s.currentDigit seg = true →
      isSegmentActive s.targetDigit seg = true →
      MorphingDigit.getSegmentBrightness seg s = 255) ∧
    (s.isMorphing = true → isSegmentActive s.currentDigit seg = true →
      isSegmentActive s.targetDigit seg = false →
      MorphingDigit.getSegmentBrightness seg s = truncToUInt8 (255 * (1 - s.progress))) ∧
    (s.isMorphing = true → isSegmentActive s.currentDigit seg = false →
      isSegmentActive s.targetDigit seg = true →
      MorphingDigit.getSegmentBrightness seg s = truncToUInt8 (255 * s.progress)) ∧
    (s.isMorphing = true → isSegmentActive s.currentDigit seg = false →
      isSegmentActive s.targetDigit seg = false →
      MorphingDigit.getSegmentBrightness seg s = 0) := by
  refine ⟨fun h => ?_, fun h h1 h2 => ?_, fun h h1 h2 => ?_, fun h h1 h2 => ?_,
    fun h h1 h2 => ?_⟩
  · simp [MorphingDigit.getSegmentBrightness, h]
  all_goals simp [MorphingDigit.getSegmentBrightness, h, h1, h2]

/-- Witness for C6: the idle clause evaluated on the initial state, segment A
of digit 0 (active, hence brightness 255). -/
theorem segment_brightness_semantics_witness :
    MorphingDigit.getSegmentBrightness 0 MorphingDigit.init =
      if isSegmentActive MorphingDigit.init.currentDigit 0 then 255 else 0 :=
  (segment_brightness_semantics MorphingDigit.init 0).1 (by decide)

/-- Counterexample to C6 as stated: at progress `1/2` (state after
`setTarget 8; update 50`), segment G fades in with code brightness
`(uint8_t)(255*0.5) = 127`, while `round(255*progress) = 128`. -/
theorem segment_brightness_counterexample :
    MorphingDigit.getSegmentBrightness 6 (MorphingDigit.run [.setT 8, .upd 50]) = 127 ∧
    round (255 * (MorphingDigit.run [.setT 8, .upd 50]).progress) = (128 : ℤ) := by
  constructor
  · norm_num [MorphingDigit.run, MorphingDigit.applyOp, MorphingDigit.setTarget,
      MorphingDigit.update, MorphingDigit.init, easeInOutCubic, U32,
      MorphingDigit.getSegmentBrightness, isSegmentActive, DIGIT_SEGMENTS, truncToUInt8]
    decide
  · have hp : (MorphingDigit.run [.setT 8, .upd 50]).progress = 1/2 := by
      norm_num [MorphingDigit.run, MorphingDigit.applyOp, MorphingDigit.setTarget,
        MorphingDigit.update, MorphingDigit.init, easeInOutCubic, U32]
    rw [hp]
    norm_num [round_eq]

/-! ### C7 : monotone progress (amended: no 32-bit overflow) -/

/-- Invariant of reachable `MorphingDigit` states used for the monotonicity
argument: the duration is the fixed 100 ms, and while morphing the elapsed
time is below the duration and `progress` is its eased image. -/
def Inv7 (s : MorphingDigit) : Prop :=
  s.morphTime = 100 ∧
  (s.isMorphing = true →
    s.elapsed < 100 ∧ s.progress = easeInOutCubic ((s.elapsed : ℚ) / 100))

/-- One `update` step never decreases `progress`, and when it ends the morph
it ends it at `progress = 1` exactly. -/
def ProgStep (a b : MorphingDigit) : Prop :=
  a.progress ≤ b.progress ∧
  (a.isMorphing = true → b.isMorphing = false → b.progress = 1)

lemma update_progStep (s : MorphingDigit) (h : Inv7 s) (d : ℕ)
    (hd : d + 100 ≤ U32) :
    ProgStep s (MorphingDigit.update d s) ∧ Inv7 (MorphingDigit.update d s) := by
  obtain ⟨hmt, hmor⟩ := h
  by_cases hb : s.isMorphing = false
  · rw [MorphingDigit.update, if_pos hb]
    refine ⟨⟨le_refl _, fun h1 _ => ?_⟩, hmt, hmor⟩
    rw [h1] at hb; exact absurd hb (by simp)
  · have hbt : s.isMorphing = true := by simpa using hb
    obtain ⟨he, hp⟩ := hmor hbt
    have hmod : (s.elapsed + d) % U32 = s.elapsed + d := Nat.mod_eq_of_lt (by omega)
    have ht0 : (0:ℚ) ≤ (s.elapsed : ℚ) / 100 :=
      div_nonneg (Nat.cast_nonneg _) (by norm_num)
    rw [MorphingDigit.update, if_neg hb]
    simp only [hmod, hmt]
    by_cases hsn : 100 ≤ s.elapsed + d
    · rw [if_pos hsn]
      refine ⟨⟨?_, fun _ _ => rfl⟩, rfl, fun hms => ?_⟩
      · rw [hp]
        exact easeInOutCubic_le_one ht0
          ((div_le_one (by norm_num)).mpr (by exact_mod_cast he.le))
      · exact absurd hms (by simp)
    · push_neg at hsn
      rw [if_neg (by omega)]
      refine ⟨⟨?_, fun _ hms => ?_⟩, rfl, fun _ => ⟨hsn, ?_⟩⟩
      · rw [hp]
        refine easeInOutCubic_mono ht0 ?_ ?_
        · apply div_le_div_of_nonneg_right ?_ (by norm_num)
          exact_mod_cast Nat.le_add_right _ _
        · exact (div_le_one (by norm_num)).mpr (by exact_mod_cast hsn.le)
      · exact absurd hms (by simp [hbt])
      · push_cast
        rfl

lemma head_scanl_update (s : MorphingDigit) (ds : List ℕ) :
    (List.scanl (fun t d => MorphingDigit.update d t) s ds).head? = some s := by
  cases ds <;> rfl

/-- C7 (amended): for every `MorphingDigit` satisfying the reachable-state
invariant and every sequence of `update` deltas small enough that the 32-bit
elapsed counter does not overflow, the trace of states has non-decreasing
`progress`, and whenever a step turns `isMorphing` from `true` to `false`
the new `progress` is exactly `1`.  (Unrestricted deltas can wrap the 32-bit
counter and make `progress` decrease — see the counterexample.) -/
theorem morph_progress_monotone (s : MorphingDigit) (hs : Inv7 s)
    (ds : List ℕ) (hds : ∀ d ∈ ds, d + 100 ≤ U32) :
    List.Chain' ProgStep
      (List.scanl (fun t d => MorphingDigit.update d t) s ds) := by
  induction ds generalizing s with
  | nil => simp
  | cons d rest ih =>
    have step := update_progStep s hs d (hds d (by simp))
    have hchain := ih (MorphingDigit.update d s) step.2
      (fun x hx => hds x (by simp [hx]))
    rw [show List.scanl (fun t d => MorphingDigit.update d t) s (d :: rest) =
        s :: List.scanl (fun t d => MorphingDigit.update d t)
          (MorphingDigit.update d s) rest from rfl]
    rw [List.chain'_cons']
    refine ⟨fun y hy => ?_, hchain⟩
    rw [head_scanl_update] at hy
    simp only [Option.mem_def, Option.some.injEq] at hy
    rw [← hy]
    exact step.1

/-- Witness for C7: the concrete trace `setTarget 8` then updates `[50, 60]`
is monotone. -/
theorem morph_progress_monotone_witness :
    List.Chain' ProgStep
      (List.scanl (fun t d => MorphingDigit.update d t)
        (MorphingDigit.setTarget 8 MorphingDigit.init) [50, 60]) :=
  morph_progress_monotone (MorphingDigit.setTarget 8 MorphingDigit.init)
    (by
      constructor
      · decide
      · intro _
        refine ⟨by decide, ?_⟩
        norm_num [MorphingDigit.setTarget, MorphingDigit.init, easeInOutCubic])
    [50, 60]
    (by intro x hx; fin_cases hx <;> norm_num [U32])

/-- Counterexample to C7 as stated: with the 32-bit elapsed counter, the
non-negative delta `2^32 - 50` after `update 99` wraps the counter back to
49 ms and `progress` strictly decreases while still morphing. -/
theorem morph_progress_monotone_counterexample :
    (MorphingDigit.run [.setT 8, .upd 99]).isMorphing = true ∧
    (MorphingDigit.run [.setT 8, .upd 99, .upd (U32 - 50)]).isMorphing = true ∧
    (MorphingDigit.run [.setT 8, .upd 99, .upd (U32 - 50)]).progress <
      (MorphingDigit.run [.setT 8, .upd 99]).progress := by
  refine ⟨by decide, by decide, ?_⟩
  norm_num [MorphingDigit.run, MorphingDigit.applyOp, MorphingDigit.setTarget,
    MorphingDigit.update, MorphingDigit.init, easeInOutCubic, U32]

/-! ### C2 : delta compositor (`renderFBToTFT` in src/src/main.cpp) -/

def LED_MATRIX_W : ℕ := 64
def LED_MATRIX_H : ℕ := 32

/-- Logical-cell→physical-pixel mapping used by `renderFBToTFT`
(`x0`, `y0` may be negative, e.g. `(480-512)/2 = -16` in Morph mode). -/
structure RenderParams where
  x0 : ℤ
  y0 : ℤ
  pitchX : ℕ
  pitchY : ℕ
  dot : ℕ
  insetX : ℕ
  insetY : ℕ
  deriving DecidableEq, Repr

/-- One emitted `tft.fillRect` call. -/
structure TFTWrite where
  x : ℤ
  y : ℤ
  w : ℕ
  h : ℕ
  color : ℕ
  deriving DecidableEq, Repr

/-- The block write `renderFBToTFT` emits for cell `(x, y)`:
`fillRect(x0 + x*pitchX + insetX, y0 + y*pitchY + insetY, dot, dot, fb[y][x])`. -/
def cellWrite (p : RenderParams) (fb : ℕ → ℕ → ℕ) (y x : ℕ) : TFTWrite :=
  { x := p.x0 + x * p.pitchX + p.insetX
    y := p.y0 + y * p.pitchY + p.insetY
    w := p.dot, h := p.dot, color := fb y x }

/-- The delta loop of `renderFBToTFT`: row-major scan of the framebuffer,
skipping (`continue`) every cell whose color equals the shadow's. -/
def renderWrites (p : RenderParams) (fb fbPrev : ℕ → ℕ → ℕ) : List TFTWrite :=
  (((List.range LED_MATRIX_H).product (List.range LED_MATRIX_W)).filter
      (fun c => fb c.1 c.2 != fbPrev c.1 c.2)).map
    (fun c => cellWrite p fb c.1 c.2)

/-- Full flush: emit the delta writes, then `memcpy(fbPrev, fb, sizeof(fb))`. -/
def renderFlush (p : RenderParams) (fb fbPrev : ℕ → ℕ → ℕ) :
    List TFTWrite × (ℕ → ℕ → ℕ) :=
  (renderWrites p fb fbPrev, fb)

lemma cellWrite_injective (p : RenderParams) (fb : ℕ → ℕ → ℕ)
    (hx : 0 < p.pitchX) (hy : 0 < p.pitchY) :
    Function.Injective (fun c : ℕ × ℕ => cellWrite p fb c.1 c.2) := by
  rintro ⟨y, x⟩ ⟨y', x'⟩ h
  simp only [cellWrite, TFTWrite.mk.injEq] at h
  obtain ⟨hxeq, hyeq, -, -, -⟩ := h
  have hx' : ((x * p.pitchX : ℕ) : ℤ) = ((x' * p.pitchX : ℕ) : ℤ) := by
    push_cast at hxeq ⊢; linarith
  have hy' : ((y * p.pitchY : ℕ) : ℤ) = ((y' * p.pitchY : ℕ) : ℤ) := by
    push_cast at hyeq ⊢; linarith
  have hxn : x = x' :=
    Nat.eq_of_mul_eq_mul_right hx (Nat.cast_inj.mp hx')
  have hyn : y = y' :=
    Nat.eq_of_mul_eq_mul_right hy (Nat.cast_inj.mp hy')
  simp [hxn, hyn]

/-- C2: with positive pitches, the flush emits exactly one `dot×dot` block
write for each cell whose color differs from the shadow (count 1 in the
emitted list) and none for identical cells (count 0 — in particular an
identical framebuffer emits zero writes), and afterwards the shadow equals
the current framebuffer. -/
theorem delta_compositor_contract (p : RenderParams) (fb fbPrev : ℕ → ℕ → ℕ)
    (hx : 0 < p.pitchX) (hy : 0 < p.pitchY) :
    (∀ y < LED_MATRIX_H, ∀ x < LED_MATRIX_W,
      (renderWrites p fb fbPrev).count (cellWrite p fb y x) =
        if fb y x = fbPrev y x then 0 else 1) ∧
    (∀ wr ∈ renderWrites p fb fbPrev, wr.w = p.dot ∧ wr.h = p.dot) ∧
    ((∀ y < LED_MATRIX_H, ∀ x < LED_MATRIX_W, fb y x = fbPrev y x) →
      renderWrites p fb fbPrev = []) ∧
    (renderFlush p fb fbPrev).2 = fb := by
  refine ⟨?_, ?_, ?_, rfl⟩
  · intro y hy' x hx'
    unfold renderWrites
    rw [show cellWrite p fb y x =
        (fun c : ℕ × ℕ => cellWrite p fb c.1 c.2) (y, x) from rfl]
    rw [List.count_map_of_injective _ _ (cellWrite_injective p fb hx hy)]
    have hnodup : (((List.range LED_MATRIX_H).product
        (List.range LED_MATRIX_W)).filter
        (fun c => fb c.1 c.2 != fbPrev c.1 c.2)).Nodup :=
      ((List.nodup_range _).product (List.nodup_range _)).filter _
    rw [List.count_eq_of_nodup hnodup]
    by_cases heq : fb y x = fbPrev y x
    · rw [if_pos heq, if_neg]
      intro hmem
      rw [List.mem_filter] at hmem
      exact absurd heq (by simpa using hmem.2)
    · rw [if_neg heq, if_pos]
      rw [List.mem_filter]
      refine ⟨List.mem_product.mpr ⟨List.mem_range.mpr hy', List.mem_range.mpr hx'⟩, ?_⟩
      simpa using heq
  · intro wr hwr
    unfold renderWrites at hwr
    rw [List.mem_map] at hwr
    obtain ⟨c, -, rfl⟩ := hwr
    exact ⟨rfl, rfl⟩
  · intro hall
    unfold renderWrites
    have hfil : (((List.range LED_MATRIX_H).product
        (List.range LED_MATRIX_W)).filter
        (fun c => fb c.1 c.2 != fbPrev c.1 c.2)) = [] := by
      apply List.filter_eq_nil_iff.mpr
      rintro ⟨c1, c2⟩ hc
      obtain ⟨h1, h2⟩ := List.mem_product.mp hc
      simp [hall c1 (List.mem_range.mp h1) c2 (List.mem_range.mp h2)]
    rw [hfil]
    rfl

/-- Concrete framebuffer used by the C2 witness: one lit cell at `(x,y)=(1,0)`. -/
def fbW : ℕ → ℕ → ℕ := fun y x => if y = 0 ∧ x = 1 then 7 else 0

/-- Concrete all-black shadow used by the C2 witness. -/
def prevW : ℕ → ℕ → ℕ := fun _ _ => 0

/-- Concrete render params used by the C2 witness (Morph-mode pitches 8×9). -/
def pW : RenderParams := ⟨0, 0, 8, 9, 7, 0, 1⟩

/-- Witness for C2 at a concrete framebuffer/shadow/mapping. -/
theorem delta_compositor_contract_witness :
    (∀ y < LED_MATRIX_H, ∀ x < LED_MATRIX_W,
      (renderWrites pW fbW prevW).count (cellWrite pW fbW y x) =
        if fbW y x = prevW y x then 0 else 1) ∧
    (∀ wr ∈ renderWrites pW fbW prevW, wr.w = pW.dot ∧ wr.h = pW.dot) ∧
    ((∀ y < LED_MATRIX_H, ∀ x < LED_MATRIX_W, fbW y x = prevW y x) →
      renderWrites pW fbW prevW = []) ∧
    (renderFlush pW fbW prevW).2 = fbW :=
  delta_compositor_contract pW fbW prevW (by decide) (by decide)

/-! ### C9 : mode switching (`switchClockMode` in src/src/main.cpp) -/

def TOTAL_CLOCK_MODES : ℕ := 3
def CLOCK_MODE_7SEG : ℕ := 0
def CLOCK_MODE_TETRIS : ℕ := 1
def CLOCK_MODE_MORPH : ℕ := 2

/-- Globals touched by `switchClockMode`: the active mode, framebuffer,
previous-frame shadow, and whether `tetrisClock->reset()` was invoked.
The program has no `fadeLevel` and no `inTransition` variable. -/
structure ModeState where
  clockMode : ℕ
  fb : ℕ → ℕ → ℕ
  fbPrev : ℕ → ℕ → ℕ
  tetrisResetCalled : Bool

/-- `switchClockMode` from src/src/main.cpp: reject invalid modes, no-op on
the current mode, otherwise set the mode, clear the framebuffer and the
shadow (`memset(fbPrev, 0, ...)`) and reset the Tetris animator iff the new
mode is the Tetris mode.  (TFT clear, status-bar reset and NVS save are
display/persistence side effects outside the model.) -/
def switchClockMode (newMode : ℕ) (s : ModeState) : ModeState :=
  if TOTAL_CLOCK_MODES ≤ newMode then s
  else if newMode = s.clockMode then s
  else
    { clockMode := newMode
      fb := fun _ _ => 0
      fbPrev := fun _ _ => 0
      tetrisResetCalled := newMode == CLOCK_MODE_TETRIS }

/-- C9 (code evaluated at the failing input): switching from Morph mode to
the 7-segment mode — a mode with no build-itself-in animation — produces
exactly the cleared-framebuffer state with the new mode and nothing else;
no fade runs and the state carries no fade level or transition flag,
contradicting the claimed `fadeLevel 255→128→255` transition. -/
theorem switchClockMode_no_fade (s : ModeState)
    (h : s.clockMode = CLOCK_MODE_MORPH) :
    switchClockMode CLOCK_MODE_7SEG s =
      { clockMode := CLOCK_MODE_7SEG, fb := fun _ _ => 0
        fbPrev := fun _ _ => 0, tetrisResetCalled := false } := by
  simp [switchClockMode, h, TOTAL_CLOCK_MODES, CLOCK_MODE_7SEG,
    CLOCK_MODE_MORPH, CLOCK_MODE_TETRIS]

/-- Witness for C9's evaluation at a concrete pre-switch state. -/
theorem switchClockMode_no_fade_witness :
    switchClockMode CLOCK_MODE_7SEG
        ⟨CLOCK_MODE_MORPH, fun _ _ => 0, fun _ _ => 0, false⟩ =
      { clockMode := CLOCK_MODE_7SEG, fb := fun _ _ => 0
        fbPrev := fun _ _ => 0, tetrisResetCalled := false } :=
  switchClockMode_no_fade ⟨CLOCK_MODE_MORPH, fun _ _ => 0, fun _ _ => 0, false⟩ rfl

/-! ### C3 : particle morph (modelled from the spec) -/

/-- Modelled from the spec: squared Euclidean distance between particle
points, used by the greedy matcher of `renderParticle` (the particle-morph
renderer itself is not present under src/). -/
def dist2 (p q : ℤ × ℤ) : ℤ :=
  (p.1 - q.1) * (p.1 - q.1) + (p.2 - q.2) * (p.2 - q.2)

/-- Modelled from the spec: pick the not-yet-used `To` point closest to `p`
by squared Euclidean distance, ties broken by first-found in `To` scan
order; returns the chosen point and the remaining points in scan order. -/
def pickMin (p : ℤ × ℤ) : List (ℤ × ℤ) → Option ((ℤ × ℤ) × List (ℤ × ℤ))
  | [] => none
  | a :: rest =>
    match pickMin p rest with
    | none => some (a, rest)
    | some (b, rs) =>
      if dist2 p a ≤ dist2 p b then some (a, rest)
      else some (b, a :: rs)

/-- Modelled from the spec: for `i` in `0..min(m,n)-1` in `From` scan order,
greedily assign the closest unused `To` point and mark it used; returns the
matched pairs and the unused `To` points. -/
def greedyMatch : List (ℤ × ℤ) → List (ℤ × ℤ) →
    List ((ℤ × ℤ) × (ℤ × ℤ)) × List (ℤ × ℤ)
  | [], avail => ([], avail)
  | f :: fs, avail =>
    match pickMin f avail with
    | none => ([], avail)
    | some (b, rest) =>
      let r := greedyMatch fs rest
      ((f, b) :: r.1, r.2)

/-- Result of one particle-morph render call. -/
structure ParticleRender where
  pairs : List ((ℤ × ℤ) × (ℤ × ℤ))
  fadeIn : List ((ℤ × ℤ) × ℕ)
  fadeOut : List ((ℤ × ℤ) × ℕ)
  deriving DecidableEq, Repr

/-- Modelled from the spec: `renderParticle(from, to, t)` — matched pairs
are drawn opaque (interpolated by `t`), unused `To` points fade in with
alpha `round(255*t)`, and `From` points beyond index `min(m,n)` fade out
with alpha `round(255*(1-t))`. -/
def renderParticle (fromPts toPts : List (ℤ × ℤ)) (t : ℚ) : ParticleRender :=
  let m := greedyMatch fromPts toPts
  { pairs := m.1
    fadeIn := m.2.map (fun q => (q, (round (255 * t)).toNat))
    fadeOut := (fromPts.drop (min fromPts.length toPts.length)).map
      (fun q => (q, (round (255 * (1 - t))).toNat)) }

lemma pickMin_length (p : ℤ × ℤ) :
    ∀ avail b rest, pickMin p avail = some (b, rest) →
      rest.length + 1 = avail.length := by
  intro avail
  induction avail with
  | nil => intro b rest h; simp [pickMin] at h
  | cons a as ih =>
    intro b rest h
    simp only [pickMin] at h
    cases hpm : pickMin p as with
    | none =>
      rw [hpm] at h
      simp only [Option.some.injEq, Prod.mk.injEq] at h
      rw [← h.2]
      simp
    | some br =>
      obtain ⟨b', rs⟩ := br
      rw [hpm] at h
      simp only at h
      split at h
      · simp only [Option.some.injEq, Prod.mk.injEq] at h
        rw [← h.2]
        simp
      · simp only [Option.some.injEq, Prod.mk.injEq] at h
        have hrs := ih b' rs hpm
        rw [← h.2]
        simp [List.length_cons]
        omega

lemma pickMin_isSome (p a : ℤ × ℤ) (avail : List (ℤ × ℤ)) :
    ∃ b rest, pickMin p (a :: avail) = some (b, rest) := by
  simp only [pickMin]
  cases hpm : pickMin p avail with
  | none => exact ⟨a, avail, rfl⟩
  | some br =>
    obtain ⟨b, rs⟩ := br
    by_cases hle : dist2 p a ≤ dist2 p b
    · exact ⟨a, avail, by simp [hle]⟩
    · exact ⟨b, a :: rs, by simp [hle]⟩

lemma greedyMatch_lengths :
    ∀ (fs avail : List (ℤ × ℤ)),
      (greedyMatch fs avail).1.length = min fs.length avail.length ∧
      (greedyMatch fs avail).2.length =
        avail.length - min fs.length avail.length := by
  intro fs
  induction fs with
  | nil => intro avail; simp [greedyMatch]
  | cons f fs ih =>
    intro avail
    cases avail with
    | nil => simp [greedyMatch, pickMin]
    | cons a as =>
      obtain ⟨b, rest, hpm⟩ := pickMin_isSome f a as
      have hlen := pickMin_length f (a :: as) b rest hpm
      simp only [greedyMatch, hpm]
      obtain ⟨ih1, ih2⟩ := ih rest
      constructor
      · simp only [List.length_cons, ih1]
        simp at hlen
        omega
      · simp only [List.length_cons, ih2]
        simp at hlen
        omega

/-- C3 (spec-modelled): the greedy matcher pairs exactly `min(m,n)` points,
`|fadeIn| + pairs = n` and `|fadeOut| + pairs = m`; Scenario B: for
`From = [(0,0),(1,1)]`, `To = [(0,0),(1,1),(5,5)]` the pairs are
`(0,0)-(0,0)` and `(1,1)-(1,1)` and `(5,5)` fades in with alpha
`round(255*t)`. -/
theorem particle_match_conservation (fromPts toPts : List (ℤ × ℤ)) (t : ℚ) :
    (renderParticle fromPts toPts t).pairs.length =
      min fromPts.length toPts.length ∧
    (renderParticle fromPts toPts t).fadeIn.length +
      (renderParticle fromPts toPts t).pairs.length = toPts.length ∧
    (renderParticle fromPts toPts t).fadeOut.length +
      (renderParticle fromPts toPts t).pairs.length = fromPts.length ∧
    (renderParticle [(0,0),(1,1)] [(0,0),(1,1),(5,5)] t).pairs =
      [((0,0),(0,0)), ((1,1),(1,1))] ∧
    (renderParticle [(0,0),(1,1)] [(0,0),(1,1),(5,5)] t).fadeIn =
      [((5,5), (round (255 * t)).toNat)] := by
  obtain ⟨h1, h2⟩ := greedyMatch_lengths fromPts toPts
  have hg : greedyMatch [((0,0) : ℤ × ℤ), (1,1)] [((0,0) : ℤ × ℤ), (1,1), (5,5)] =
      ([(((0,0) : ℤ × ℤ), ((0,0) : ℤ × ℤ)), ((1,1), (1,1))],
        [((5,5) : ℤ × ℤ)]) := by decide
  refine ⟨?_, ?_, ?_, ?_, ?_⟩
  · simpa [renderParticle] using h1
  · simp only [renderParticle, List.length_map, h1, h2]
    have := Nat.min_le_right fromPts.length toPts.length
    omega
  · simp only [renderParticle, List.length_map, List.length_drop, h1]
    have := Nat.min_le_left fromPts.length toPts.length
    omega
  · simp only [renderParticle]
    rw [hg]
  · simp only [renderParticle]
    rw [hg]
    simp only [List.map_cons, List.map_nil]

/-! ### C8 : spawn morph (`drawSpawnMorphToTarget` in src/src/main.cpp) -/

/-- `DIGIT_H = LED_MATRIX_H` (32) from src/src/main.cpp. -/
def DIGIT_H : ℕ := LED_MATRIX_H

/-- `MORPH_STEPS` from include/config.h. -/
def MORPH_STEPS : ℕ := 20

/-- `buildPixelsFromBitmap` from src/src/main.cpp: scan rows `y` then
columns `x`, collecting coordinates whose bit `15 - x` is set. -/
def buildPixelsFromBitmap (bm : List ℕ) (w : ℕ) : List (ℕ × ℕ) :=
  (((List.range DIGIT_H).product (List.range w)).filter
      (fun c => (bm.getD c.1 0 >>> (15 - c.2)) &&& 1 == 1)).map
    (fun c => (c.2, c.1))

/-- `fbSet` from src/src/main.cpp: bounds-checked single-pixel write. -/
def fbSet (x y : ℤ) (color : ℕ) (fb : ℕ → ℕ → ℕ) : ℕ → ℕ → ℕ :=
  if x < 0 ∨ y < 0 ∨ (LED_MATRIX_W : ℤ) ≤ x ∨ (LED_MATRIX_H : ℤ) ≤ y then fb
  else fun y' x' => if y' = y.toNat ∧ x' = x.toNat then color else fb y' x'

/-- The per-channel alpha scaling of `drawSpawnMorphToTarget`:
`r = ((base>>11)&0x1F)*alpha/255` etc., recomposed as RGB565. -/
def scaleColor565 (base alpha : ℕ) : ℕ :=
  let r := ((base >>> 11) &&& 31) * alpha / 255
  let g := ((base >>> 5) &&& 63) * alpha / 255
  let b := (base &&& 31) * alpha / 255
  (r <<< 11) ||| (g <<< 5) ||| b

/-- C `lroundf` for the non-negative values occurring in the spawn morph:
round half away from zero, i.e. `⌊q + 1/2⌋` for `q ≥ 0`. -/
def lroundQ (q : ℚ) : ℤ := ⌊q + 1/2⌋

/-- One loop iteration of `drawSpawnMorphToTarget`: interpolate the target
pixel from the spawn origin `(sx, sy)` by eased time `te`, round, rescale
the row (`yScaled = y*LED_MATRIX_H/DIGIT_H`), and write. -/
def spawnWrite (x0 y0 : ℤ) (sx sy te : ℚ) (color : ℕ)
    (acc : ℕ → ℕ → ℕ) (pt : ℕ × ℕ) : ℕ → ℕ → ℕ :=
  let xf := sx + ((pt.1 : ℚ) - sx) * te
  let yf := sy + ((pt.2 : ℚ) - sy) * te
  let x := lroundQ xf
  let y := lroundQ yf
  let yScaled := y * (LED_MATRIX_H : ℤ) / (DIGIT_H : ℤ)
  fbSet (x0 + x) (y0 + yScaled) color acc

/-- `drawSpawnMorphToTarget` from src/src/main.cpp: gather the target
glyph's pixels (capped at 420), clamp `t = step/MORPH_STEPS` to `[0,1]`,
ease `te = 1-(1-t)^2`, fade alpha `(uint8_t)(255*t)` (truncating cast),
and write every interpolated pixel. -/
def drawSpawnMorphToTarget (toBm : List ℕ) (step : ℤ) (x0 y0 : ℤ) (w : ℕ)
    (baseColor : ℕ) (fb : ℕ → ℕ → ℕ) : ℕ → ℕ → ℕ :=
  let toPts := (buildPixelsFromBitmap toBm w).take 420
  let t0 : ℚ := (step : ℚ) / (MORPH_STEPS : ℚ)
  let t : ℚ := if t0 < 0 then 0 else if t0 > 1 then 1 else t0
  let te : ℚ := 1 - (1 - t) * (1 - t)
  let sx : ℚ := ((w : ℚ) - 1) * (1/2)
  let sy : ℚ := ((DIGIT_H : ℚ) - 1) * (1/2)
  let alpha : ℕ := truncToUInt8 (255 * t)
  let color : ℕ := scaleColor565 baseColor alpha
  toPts.foldl (spawnWrite x0 y0 sx sy te color) fb

lemma truncToUInt8_zero : truncToUInt8 0 = 0 := by
  simp [truncToUInt8]

lemma truncToUInt8_255 : truncToUInt8 255 = 255 := by
  rw [truncToUInt8, show ((255 : ℚ)) = ((255 : ℕ) : ℚ) by norm_num,
    Int.floor_natCast]
  rfl

lemma scaleColor565_zero (base : ℕ) : scaleColor565 base 0 = 0 := by
  simp [scaleColor565]

lemma lroundQ_natCast (n : ℕ) : lroundQ (n : ℚ) = n := by
  rw [lroundQ, Int.floor_eq_iff]
  constructor
  · push_cast; linarith
  · push_cast; linarith

lemma scaleColor565_opaque (c : ℕ) (hc : c < 65536) : scaleColor565 c 255 = c := by
  have hdiv : ∀ a : ℕ, a * 255 / 255 = a := fun a => by omega
  rw [scaleColor565]
  simp only [hdiv]
  have h31 : (31 : ℕ) = 2 ^ 5 - 1 := by norm_num
  have h63 : (63 : ℕ) = 2 ^ 6 - 1 := by norm_num
  apply Nat.eq_of_testBit_eq
  intro i
  simp only [h31, h63, Nat.testBit_or, Nat.testBit_shiftLeft,
    Nat.testBit_and, Nat.testBit_shiftRight, Nat.testBit_two_pow_sub_one,
    ge_iff_le]
  rcases lt_or_ge i 5 with h5 | h5
  · simp [show ¬(11 ≤ i) by omega, show ¬(5 ≤ i) by omega, h5]
  · rcases lt_or_ge i 11 with h11 | h11
    · simp [show ¬(11 ≤ i) by omega, show 5 ≤ i from h5,
        show 5 + (i - 5) = i by omega, show i - 5 < 6 by omega, h11]
    · rcases lt_or_ge i 16 with h16 | h16
      · simp [show 11 ≤ i from h11, show 5 ≤ i from h5,
          show 11 + (i - 11) = i by omega, show i - 11 < 5 by omega,
          show ¬(i - 5 < 6) by omega, show ¬(i < 5) by omega]
      · have hbf : c.testBit i = false :=
          Nat.testBit_lt_two_pow (lt_of_lt_of_le hc
            (le_trans (by norm_num) (Nat.pow_le_pow_right (by norm_num) h16)))
        simp [hbf, show ¬(i - 11 < 5) by omega, show ¬(i - 5 < 6) by omega,
          show ¬(i < 5) by omega]

lemma fbSet_zero (x y : ℤ) : fbSet x y 0 (fun _ _ => 0) = fun _ _ => 0 := by
  rw [fbSet]
  split
  · rfl
  · funext y' x'
    simp

lemma fbSet_preserve (x y : ℤ) (C : ℕ) (fb : ℕ → ℕ → ℕ) (y' x' : ℕ)
    (h : fb y' x' = C) : fbSet x y C fb y' x' = C := by
  rw [fbSet]
  split
  · exact h
  · dsimp only
    split
    · rfl
    · exact h

lemma fbSet_write (x y : ℤ) (C : ℕ) (fb : ℕ → ℕ → ℕ)
    (h1 : 0 ≤ x) (h2 : x < LED_MATRIX_W) (h3 : 0 ≤ y) (h4 : y < LED_MATRIX_H) :
    fbSet x y C fb y.toNat x.toNat = C := by
  rw [fbSet, if_neg (by omega)]
  simp

lemma foldl_spawnWrite_zero (x0 y0 : ℤ) (sx sy te : ℚ) (ps : List (ℕ × ℕ)) :
    ps.foldl (spawnWrite x0 y0 sx sy te 0) (fun _ _ => 0) = fun _ _ => 0 := by
  induction ps with
  | nil => rfl
  | cons p ps ih =>
    rw [List.foldl_cons]
    have hz : spawnWrite x0 y0 sx sy te 0 (fun _ _ => 0) p = fun _ _ => 0 :=
      fbSet_zero _ _
    rw [hz]
    exact ih

lemma foldl_spawnWrite_keep (x0 y0 : ℤ) (sx sy te : ℚ) (C : ℕ) :
    ∀ (ps : List (ℕ × ℕ)) (fb : ℕ → ℕ → ℕ) (y' x' : ℕ), fb y' x' = C →
      ps.foldl (spawnWrite x0 y0 sx sy te C) fb y' x' = C := by
  intro ps
  induction ps with
  | nil => intro fb y' x' h; exact h
  | cons p ps ih =>
    intro fb y' x' h
    rw [List.foldl_cons]
    exact ih _ _ _ (fbSet_preserve _ _ _ _ _ _ h)

lemma spawnWrite_te_one (x0 y0 : ℤ) (sx sy : ℚ) (C : ℕ) (acc : ℕ → ℕ → ℕ)
    (pt : ℕ × ℕ) :
    spawnWrite x0 y0 sx sy 1 C acc pt = fbSet (x0 + pt.1) (y0 + pt.2) C acc := by
  have hx : sx + ((pt.1 : ℚ) - sx) * 1 = ((pt.1 : ℕ) : ℚ) := by ring
  have hy : sy + ((pt.2 : ℚ) - sy) * 1 = ((pt.2 : ℕ) : ℚ) := by ring
  simp only [spawnWrite, hx, hy, lroundQ_natCast]
  rw [show ((LED_MATRIX_H : ℕ) : ℤ) = 32 from rfl,
    show ((DIGIT_H : ℕ) : ℤ) = 32 from rfl]
  rw [Int.mul_ediv_cancel _ (by norm_num)]

lemma foldl_spawnWrite_mem (x0 y0 : ℤ) (sx sy : ℚ) (C : ℕ) :
    ∀ (ps : List (ℕ × ℕ)) (fb : ℕ → ℕ → ℕ) (p : ℕ × ℕ), p ∈ ps →
      0 ≤ x0 + (p.1 : ℤ) → x0 + (p.1 : ℤ) < LED_MATRIX_W →
      0 ≤ y0 + (p.2 : ℤ) → y0 + (p.2 : ℤ) < LED_MATRIX_H →
      ps.foldl (spawnWrite x0 y0 sx sy 1 C) fb
        (y0 + (p.2 : ℤ)).toNat (x0 + (p.1 : ℤ)).toNat = C := by
  intro ps
  induction ps with
  | nil => intro fb p hp; simp at hp
  | cons q ps ih =>
    intro fb p hp h1 h2 h3 h4
    rw [List.foldl_cons]
    rcases List.mem_cons.mp hp with rfl | hmem
    · apply foldl_spawnWrite_keep
      rw [spawnWrite_te_one]
      exact fbSet_write _ _ _ _ h1 h2 h3 h4
    · exact ih _ p hmem h1 h2 h3 h4

/-- C8 (amended): at `t = 0` every pixel is written fully black, so the
framebuffer — cleared beforehand by `drawFrame` — is unchanged; at
`t = 1` (`step = MORPH_STEPS`) every target-glyph pixel whose mapped
coordinate is in bounds ends up holding the unscaled base color, i.e. the
full target glyph is drawn opaque at its true coordinates.  (The fade-in
alpha is the truncating cast `(uint8_t)(255*t)`, not `round(255*t)` — see
the counterexample.) -/
theorem spawn_morph_semantics (toBm : List ℕ) (w : ℕ) (x0 y0 : ℤ) (base : ℕ)
    (hbase : base < 65536) :
    (drawSpawnMorphToTarget toBm 0 x0 y0 w base (fun _ _ => 0) = fun _ _ => 0) ∧
    (∀ (fb : ℕ → ℕ → ℕ) (p : ℕ × ℕ),
      p ∈ (buildPixelsFromBitmap toBm w).take 420 →
      0 ≤ x0 + (p.1 : ℤ) → x0 + (p.1 : ℤ) < LED_MATRIX_W →
      0 ≤ y0 + (p.2 : ℤ) → y0 + (p.2 : ℤ) < LED_MATRIX_H →
      drawSpawnMorphToTarget toBm (MORPH_STEPS : ℤ) x0 y0 w base fb
        (y0 + (p.2 : ℤ)).toNat (x0 + (p.1 : ℤ)).toNat = base) := by
  constructor
  · simp only [drawSpawnMorphToTarget]
    norm_num [MORPH_STEPS, truncToUInt8_zero, scaleColor565_zero]
    exact foldl_spawnWrite_zero _ _ _ _ _ _
  · intro fb p hp h1 h2 h3 h4
    simp only [drawSpawnMorphToTarget]
    norm_num [MORPH_STEPS, truncToUInt8_255, scaleColor565_opaque base hbase]
    exact foldl_spawnWrite_mem x0 y0 _ _ base _ fb p hp h1 h2 h3 h4

/-- Counterexample to C8 as stated: at `step = 1` (`t = 1/20`) the code's
fade-in alpha is the truncating cast `(uint8_t)(255*0.05) = 12` and the
single glyph pixel is written with the alpha-12 color `2113`, whereas the
claim's `round(255*t) = 13` would give color `2145`. -/
theorem spawn_alpha_counterexample :
    drawSpawnMorphToTarget [32768] 1 0 0 1 65535 (fun _ _ => 0) 14 0 =
      scaleColor565 65535 12 ∧
    scaleColor565 65535 12 = 2113 ∧
    (round (255 * ((1 : ℚ) / (MORPH_STEPS : ℚ)))).toNat = 13 ∧
    scaleColor565 65535 13 = 2145 := by
  refine ⟨?_, by decide, ?_, by decide⟩
  · have hbuild : (buildPixelsFromBitmap [32768] 1).take 420 = [(0, 0)] := by decide
    simp only [drawSpawnMorphToTarget, hbuild, MORPH_STEPS, List.foldl_cons,
      List.foldl_nil]
    norm_num [spawnWrite, lroundQ, truncToUInt8, fbSet, DIGIT_H, LED_MATRIX_H,
      LED_MATRIX_W]
    decide
  · norm_num [MORPH_STEPS, round_eq]
    decide

/-- Witness for C8: a one-pixel glyph (bit 15 of row 0) at `step = MORPH_STEPS`
is drawn opaque with the unscaled base color at its true coordinate. -/
theorem spawn_morph_semantics_witness :
    drawSpawnMorphToTarget [32768] (MORPH_STEPS : ℤ) 0 0 1 2113
      (fun _ _ => 0) 0 0 = 2113 := by
  have h := (spawn_morph_semantics [32768] 1 0 0 2113 (by norm_num)).2
    (fun _ _ => 0) (0, 0) (by decide) (by decide)
    (by norm_num [LED_MATRIX_W]) (by decide) (by norm_num [LED_MATRIX_H])
  simpa using h
